import Mathlib

/-
Verification of the dazense semantic-layer front end.

Shallow embedding of the TypeScript sources:
  * shared tool schemas (zod) for query-metrics and classify inputs,
  * the YAML loaders getSemanticModels / getBusinessRules,
  * the agent tool executors (query-metrics, get-business-context, classify)
    and the conditional tool registration in getTools,
  * the semantic query compiler and the rule matcher, which live in the
    Python backend whose source is not part of this tree; those two are
    modelled from the written specification and marked as such.
-/

namespace Dazense

/-! ## Shared tool schemas (query-metrics input, FilterSchema / OrderBySchema) -/

/-- Filter operators of the query-metrics FilterSchema: the zod enum
eq, ne, gt, gte, lt, lte, in, not_in. -/
inductive FilterOp
  | eq | ne | gt | gte | lt | lte | inOp | notIn
  deriving DecidableEq, Repr

/-- Operator strings accepted by the FilterSchema enum. -/
def validOperatorStrings : List String :=
  ["eq", "ne", "gt", "gte", "lt", "lte", "in", "not_in"]

/-- Mapping from an operator string to the tagged operator; none for a
string outside the enum (zod rejects it). -/
def filterOpOfString : String → Option FilterOp
  | "eq" => some .eq
  | "ne" => some .ne
  | "gt" => some .gt
  | "gte" => some .gte
  | "lt" => some .lt
  | "lte" => some .lte
  | "in" => some .inOp
  | "not_in" => some .notIn
  | _ => none

/-- Raw filter as given by the caller: the operator key may be absent
(zod then applies the default eq). The value field is z.any and passes
through unchanged; it is modelled opaquely as a string. -/
structure RawFilter where
  column : String
  operator : Option String
  value : String
  deriving DecidableEq, Repr

/-- Parsed filter after FilterSchema validation. -/
structure Filter where
  column : String
  operator : FilterOp
  value : String
  deriving DecidableEq, Repr

/-- FilterSchema.parse: an absent operator defaults to eq; a present
operator must be one of the eight enum strings, otherwise parsing fails. -/
def parseFilter (f : RawFilter) : Option Filter :=
  match f.operator with
  | none => some { column := f.column, operator := .eq, value := f.value }
  | some s =>
    (filterOpOfString s).map (fun op => { column := f.column, operator := op, value := f.value })

/-- Raw order-by entry: the ascending key may be absent. -/
structure RawOrderBy where
  column : String
  ascending : Option Bool
  deriving DecidableEq, Repr

/-- Parsed order-by entry after OrderBySchema validation. -/
structure OrderBy where
  column : String
  ascending : Bool
  deriving DecidableEq, Repr

/-- OrderBySchema.parse: an absent ascending flag defaults to true. -/
def parseOrderBy (o : RawOrderBy) : OrderBy :=
  { column := o.column, ascending := o.ascending.getD true }

/-! ## Project loaders (getSemanticModels, getBusinessRules)

The loaders read a YAML file under the project folder. The filesystem and
the YAML parser are modelled by explicit parameters: whether the project
folder is configured, whether the file exists, and the outcome of
YAML.parse on its content. -/

/-- Outcome of YAML.parse on the file content: the parser may throw, may
produce a null or non-object value (all JS-falsy results are collapsed
into parsedNull, since the code only tests truthiness before reading the
top-level key), or may produce an object, modelled by the typed document. -/
inductive YamlParse (α : Type)
  | throws
  | parsedNull
  | parsed (doc : α)
  deriving DecidableEq, Repr

/-- Observable result of a loader call: the returned value together with
whether an error was logged to the console (the catch branch logs). -/
structure LoadOutcome (α : Type) where
  value : Option α
  loggedError : Bool
  deriving DecidableEq, Repr

/-- Raw dimension entry of the models document. -/
structure RawDimension where
  column : String
  description : Option String
  deriving DecidableEq, Repr

/-- Raw measure entry of the models document: an aggregation type string
and an optional source column. -/
structure RawMeasure where
  type : String
  column : Option String
  deriving DecidableEq, Repr

/-- Raw join entry of the models document. -/
structure RawJoin where
  to_model : String
  foreign_key : String
  related_key : String
  type : String
  deriving DecidableEq, Repr

/-- Raw model entry of the models document, keyed maps kept as ordered
association lists. -/
structure RawModel where
  table : String
  description : Option String
  dimensions : List (String × RawDimension)
  measures : List (String × RawMeasure)
  joins : List (String × RawJoin)
  deriving DecidableEq, Repr

/-- Parsed models document: the top-level models key may be absent. -/
structure ModelsDoc where
  models : Option (List (String × RawModel))
  deriving DecidableEq, Repr

/-- In-memory model summary built by getSemanticModels: only names, the
table, the description, dimension names, measure names with their
aggregation type, and join aliases are retained. -/
structure SemanticModelInfo where
  name : String
  table : String
  description : Option String
  dimensions : List String
  measures : List (String × String)
  joins : List String
  deriving DecidableEq, Repr

/-- Mapping of one raw model entry to its SemanticModelInfo, as in the
Object.entries map of getSemanticModels. -/
def modelToInfo (name : String) (m : RawModel) : SemanticModelInfo :=
  { name := name
    table := m.table
    description := m.description
    dimensions := m.dimensions.map Prod.fst
    measures := m.measures.map (fun kv => (kv.1, kv.2.type))
    joins := m.joins.map Prod.fst }

/-- getSemanticModels: returns null when the project folder is not
configured (JS truthiness, so the empty string counts as unset), when the
file semantics/semantic_model.yml does not exist, when YAML.parse throws
(after logging), when the parse result is falsy, or when the models key
is absent; otherwise the mapped model list. -/
def getSemanticModels (projectFolder : Option String) (fileExists : Bool)
    (parse : YamlParse ModelsDoc) : LoadOutcome (List SemanticModelInfo) :=
  match projectFolder with
  | none => ⟨none, false⟩
  | some folder =>
    if folder = "" then ⟨none, false⟩
    else if !fileExists then ⟨none, false⟩
    else
      match parse with
      | .throws => ⟨none, true⟩
      | .parsedNull => ⟨none, false⟩
      | .parsed doc =>
        match doc.models with
        | none => ⟨none, false⟩
        | some ms => ⟨some (ms.map (fun kv => modelToInfo kv.1 kv.2)), false⟩

/-- Raw rule entry of the rules document: severity may be absent. -/
structure RawRule where
  name : String
  category : String
  severity : Option String
  description : String
  guidance : String
  deriving DecidableEq, Repr

/-- Parsed rules document: the top-level rules key may be absent. -/
structure RulesDoc where
  rules : Option (List RawRule)
  deriving DecidableEq, Repr

/-- In-memory rule built by getBusinessRules. -/
structure BusinessRuleInfo where
  name : String
  category : String
  severity : String
  description : String
  guidance : String
  deriving DecidableEq, Repr

/-- JS s || dflt on an optional string: absent and the empty string are
falsy and give the default. -/
def jsStringOr (s : Option String) (dflt : String) : String :=
  match s with
  | none => dflt
  | some v => if v = "" then dflt else v

/-- Mapping of one raw rule to its BusinessRuleInfo: severity becomes
rule.severity || info. -/
def ruleToInfo (r : RawRule) : BusinessRuleInfo :=
  { name := r.name
    category := r.category
    severity := jsStringOr r.severity "info"
    description := r.description
    guidance := r.guidance }

/-- getBusinessRules: same null-collapsing shape as getSemanticModels,
reading semantics/business_rules.yml and its top-level rules key. -/
def getBusinessRules (projectFolder : Option String) (fileExists : Bool)
    (parse : YamlParse RulesDoc) : LoadOutcome (List BusinessRuleInfo) :=
  match projectFolder with
  | none => ⟨none, false⟩
  | some folder =>
    if folder = "" then ⟨none, false⟩
    else if !fileExists then ⟨none, false⟩
    else
      match parse with
      | .throws => ⟨none, true⟩
      | .parsedNull => ⟨none, false⟩
      | .parsed doc =>
        match doc.rules with
        | none => ⟨none, false⟩
        | some rs => ⟨some (rs.map ruleToInfo), false⟩

/-! ## Conditional tool registration (agents/tools/index.ts) -/

/-- hasSemanticModel: true when the project folder is configured (JS
truthiness: nonempty string) and semantics/semantic_model.yml exists.
The filesystem is modelled as a predicate on paths. -/
def hasSemanticModel (projectFolder : Option String) (fs : String → Bool) : Bool :=
  match projectFolder with
  | none => false
  | some folder =>
    if folder = "" then false else fs (folder ++ "/semantics/semantic_model.yml")

/-- hasBusinessRules: same check for semantics/business_rules.yml. -/
def hasBusinessRules (projectFolder : Option String) (fs : String → Bool) : Bool :=
  match projectFolder with
  | none => false
  | some folder =>
    if folder = "" then false else fs (folder ++ "/semantics/business_rules.yml")

/-- Agent settings as consulted by getTools: the optional experimental
pythonSandboxing flag, reached through optional chaining. -/
structure AgentSettings where
  experimentalPythonSandboxing : Option Bool
  deriving DecidableEq, Repr

/-- JS truthiness of agentSettings?.experimental?.pythonSandboxing. -/
def pythonSandboxingOn (s : Option AgentSettings) : Bool :=
  match s with
  | none => false
  | some st => st.experimentalPythonSandboxing.getD false

/-- Unconditional tool names of the tools object after execute_python is
destructured away in getTools. -/
def baseToolNames : List String :=
  ["display_chart", "execute_sql", "grep", "list", "read", "search", "suggest_follow_ups"]

/-- getTools, as the list of registered tool names: base tools, MCP
tools, execute_python when allowed and available, and the semantic-layer
tools guarded by the existence checks. Object-spread key membership is
the union of the parts. -/
def getTools (agentSettings : Option AgentSettings) (mcpToolNames : List String)
    (executePythonAvailable : Bool) (projectFolder : Option String)
    (fs : String → Bool) : List String :=
  baseToolNames ++ mcpToolNames
    ++ (if pythonSandboxingOn agentSettings && executePythonAvailable
        then ["execute_python"] else [])
    ++ (if hasSemanticModel projectFolder fs then ["query_metrics"] else [])
    ++ (if hasBusinessRules projectFolder fs then ["get_business_context"] else [])
    ++ (if hasBusinessRules projectFolder fs then ["classify"] else [])

/-! ## Tool executors (query-metrics.ts, get-business-context.ts, classify.ts)

Each executor performs exactly one fetch against the FastAPI backend.
The backend is modelled as an oracle from the request index to the HTTP
response; an executor returns its outcome together with the number of
backend requests it made. -/

/-- HTTP response as observed by the executors: the ok flag, the status
text, whether the body parses as JSON, the JSON.stringify of the parsed
body detail field, and the success payload (opaque). -/
structure HttpResponse where
  ok : Bool
  statusText : String
  bodyParses : Bool
  detailJson : String
  successBody : String
  deriving DecidableEq, Repr

/-- JSON.stringify of a plain string (escaping not modelled). -/
def jsonQuote (s : String) : String := "\"" ++ s ++ "\""

/-- Detail carried by a thrown tool error: the stringified detail field
of the parsed error body, or the stringified statusText when the body
does not parse (the catch fallback builds a detail from statusText). -/
def responseDetail (r : HttpResponse) : String :=
  if r.bodyParses then r.detailJson else jsonQuote r.statusText

/-- executeQueryMetrics: one POST to /query_metrics; on a non-ok
response it throws an Error carrying the backend detail, otherwise it
returns the response body. The second component counts backend
requests. -/
def executeQueryMetrics (backend : Nat → HttpResponse) : Except String String × Nat :=
  let resp := backend 0
  if resp.ok then (.ok resp.successBody, 1)
  else (.error ("Error querying metrics: " ++ responseDetail resp), 1)

/-- executeGetBusinessContext: one POST to /business_context, same
error shape with its own message prefix. -/
def executeGetBusinessContext (backend : Nat → HttpResponse) : Except String String × Nat :=
  let resp := backend 0
  if resp.ok then (.ok resp.successBody, 1)
  else (.error ("Error fetching business context: " ++ responseDetail resp), 1)

/-- Request body built by executeGetBusinessContext: the category key is
spread in only when the string is truthy, the concepts key only when the
list has nonzero length. -/
structure BusinessContextBody where
  category : Option String
  concepts : Option (List String)
  deriving DecidableEq, Repr

/-- Body construction of get-business-context.ts. -/
def businessContextRequestBody (category : Option String) (concepts : List String) :
    BusinessContextBody :=
  { category :=
      match category with
      | none => none
      | some c => if c = "" then none else some c
    concepts := if concepts.length ≠ 0 then some concepts else none }

/-- Request body built by executeClassify: the name key only when the
string is truthy, the tags key only when the list has nonzero length. -/
structure ClassifyBody where
  name : Option String
  tags : Option (List String)
  deriving DecidableEq, Repr

/-- Body construction of classify.ts. -/
def classifyRequestBody (name : Option String) (tags : List String) : ClassifyBody :=
  { name :=
      match name with
      | none => none
      | some n => if n = "" then none else some n
    tags := if tags.length ≠ 0 then some tags else none }

/-! ## Semantic query compiler, fan-out handling (spec-modelled)

The Python semantic engine (cli/dazense_core/semantic) is not among the
provided sources; the fan-out rule is modelled from the specification,
sections 4.2 and 4.3. -/

/-- Modelled from the spec: join cardinality of a declared join
(section 3); the Python compiler source is not in this tree. -/
inductive Cardinality
  | one_to_one | many_to_one | one_to_many
  deriving DecidableEq, Repr

/-- Modelled from the spec: the plan node the compiler emits for a
fact-side aggregate — a plain scan when no join is requested, a direct
join for the safe cardinalities, and a pre-aggregated join for
one_to_many (section 4.3 step 3). -/
inductive PlanShape
  | scan
  | directJoin
  | preAggJoin
  deriving DecidableEq, Repr

/-- Modelled from the spec: plan selection when a fact-model measure is
requested — a one_to_many join is compiled to the pre-aggregated join
node, unconditionally (section 4.3 step 3). -/
def compileShape (useJoin : Bool) (card : Cardinality) : PlanShape :=
  if useJoin then
    match card with
    | .one_to_many => .preAggJoin
    | _ => .directJoin
  else .scan

/-- Fact-side row: join key and the measure source-column value. -/
abbrev FactRow := Nat × Int

/-- Row of the joined (many-side) table: join key and a payload value. -/
abbrev ManyRow := Nat × Int

/-- Modelled from the spec: pre-aggregation of the many side into a
one-row-per-key node — one output row per distinct key, carrying the
aggregate of that key's payloads (section 4.3 step 3). -/
def preAggregate (many : List ManyRow) : List ManyRow :=
  ((many.map Prod.fst).dedup).map
    (fun k => (k, ((many.filter (fun r => r.1 == k)).map Prod.snd).sum))

/-- Left join of the fact rows against a target table on the key,
keeping the fact columns: each fact row is emitted once per matching
target row, or once unmatched when the target has no row for its key. -/
def leftJoinFactRows (fact : List FactRow) (target : List ManyRow) : List FactRow :=
  fact.flatMap (fun r =>
    match target.filter (fun t => t.1 == r.1) with
    | [] => [r]
    | ms => ms.map (fun _ => r))

/-- Fact-side sum aggregate over a row set. -/
def factSum (rows : List FactRow) : Int := (rows.map Prod.snd).sum

/-- Modelled from the spec: evaluation of the fact-side sum measure
under each plan shape, with no many-side dimension selected (the
aggregate is a single total over the joined row set). -/
def evalFactSum (shape : PlanShape) (fact : List FactRow) (many : List ManyRow) : Int :=
  match shape with
  | .scan => factSum fact
  | .directJoin => factSum (leftJoinFactRows fact many)
  | .preAggJoin => factSum (leftJoinFactRows fact (preAggregate many))

/-! ## Rule matcher (spec-modelled)

The Python rules engine (cli/dazense_core/rules) is not among the
provided sources; match_rules is modelled from the specification,
section 4.4. -/

/-- Modelled from the spec: a governance rule of the loaded rule set
(section 3); the Python rules-engine source is not in this tree. -/
structure Rule where
  name : String
  category : String
  severity : String
  applies_to : List String
  description : String
  guidance : String
  deriving DecidableEq, Repr

/-- Exact-string set intersection test on concept lists. -/
def conceptsIntersect (xs ys : List String) : Bool :=
  xs.any (fun x => ys.contains x)

/-- Modelled from the spec: match_rules (section 4.4) — filter by exact
category when given, then keep rules whose applies_to intersects the
requested concepts when that list is nonempty; the categories component
is always the full distinct category set of the loaded rule set. -/
def matchRules (rules : List Rule) (category : Option String) (concepts : List String) :
    List Rule × List String :=
  let afterCategory :=
    match category with
    | none => rules
    | some c => rules.filter (fun r => r.category == c)
  let matched :=
    if concepts.isEmpty then afterCategory
    else afterCategory.filter (fun r => conceptsIntersect r.applies_to concepts)
  (matched, (rules.map (fun r => r.category)).dedup)

/-! ## Concrete example data used by counterexamples and witnesses -/

/-- Example rule from the spec scenario: the cash-tips caveat. -/
def ruleCashTips : Rule :=
  { name := "cash_tips_not_recorded", category := "data_quality", severity := "critical"
    applies_to := ["tip_amount"], description := "Cash tips are not recorded"
    guidance := "Exclude cash payments from tip analysis" }

/-- Example rule from the spec scenario: an unrelated revenue rule. -/
def ruleRevenue : Rule :=
  { name := "revenue_definition", category := "metrics", severity := "info"
    applies_to := ["orders.total_revenue"], description := "Revenue excludes cancelled orders"
    guidance := "Filter status" }

/-- Example models document: one orders model with one dimension, one
measure and one join. -/
def ordersDocA : ModelsDoc :=
  { models := some [("orders",
      { table := "orders", description := none
        dimensions := [("status", { column := "status", description := none })]
        measures := [("total_amount", { type := "sum", column := some "amount" })]
        joins := [("customer",
          { to_model := "customers", foreign_key := "user_id"
            related_key := "customer_id", type := "many_to_one" })] })] }

/-- Variant of ordersDocA differing only in the dimension source column,
the measure source column and the join target model. -/
def ordersDocB : ModelsDoc :=
  { models := some [("orders",
      { table := "orders", description := none
        dimensions := [("status", { column := "status_code", description := none })]
        measures := [("total_amount", { type := "sum", column := some "amount_usd" })]
        joins := [("customer",
          { to_model := "clients", foreign_key := "user_id"
            related_key := "customer_id", type := "many_to_one" })] })] }

/-- Example non-ok backend response. -/
def badResp : HttpResponse :=
  { ok := false, statusText := "Internal Server Error", bodyParses := true
    detailJson := "\"model not found\"", successBody := "" }

/-! ## Theorems -/

theorem filterOpOfString_isSome_iff (s : String) :
    (filterOpOfString s).isSome ↔ s ∈ validOperatorStrings := by
  unfold filterOpOfString validOperatorStrings
  split <;> simp_all

/-- Claim C5: a query-metrics filter parses exactly when its operator is
one of eq, ne, gt, gte, lt, lte, in, not_in (or is absent), and a filter
given without an operator parses with operator eq. -/
theorem C5_filter_operator_parsing (f : RawFilter) :
    ((parseFilter f).isSome ↔
      f.operator = none ∨ ∃ s, f.operator = some s ∧ s ∈ validOperatorStrings) ∧
    (f.operator = none →
      parseFilter f = some { column := f.column, operator := .eq, value := f.value }) := by
  constructor
  · cases h : f.operator with
    | none => simp [parseFilter, h]
    | some s =>
      simp only [parseFilter, h, Option.isSome_map', Option.some.injEq]
      rw [filterOpOfString_isSome_iff]
      simp
  · intro h
    simp [parseFilter, h]

theorem C5_filter_operator_parsing_witness :
    parseFilter { column := "status", operator := none, value := "completed" } =
      some { column := "status", operator := .eq, value := "completed" } :=
  (C5_filter_operator_parsing { column := "status", operator := none, value := "completed" }).2 rfl

/-- Claim C6: an order-by entry given without an ascending flag parses
with ascending = true. -/
theorem C6_order_by_default_ascending (o : RawOrderBy) (h : o.ascending = none) :
    parseOrderBy o = { column := o.column, ascending := true } := by
  simp [parseOrderBy, h]

theorem C6_order_by_default_ascending_witness :
    parseOrderBy { column := "total_amount", ascending := none } =
      { column := "total_amount", ascending := true } :=
  C6_order_by_default_ascending { column := "total_amount", ascending := none } rfl

/-- Claim C2, counterexample: a models document that is present but
malformed (it parses without the expected top-level key) produces
exactly the same loading outcome as an absent document, and likewise
for the rules document — the two states are not distinguishable at the
loading interface. -/
theorem C2_counterexample :
    getSemanticModels (some "/proj") true (.parsed { models := none }) =
      getSemanticModels (some "/proj") false (.parsed { models := none }) ∧
    getBusinessRules (some "/proj") true (.parsed { rules := none }) =
      getBusinessRules (some "/proj") false (.parsed { rules := none }) :=
  ⟨rfl, rfl⟩

/-- Claim C2 amended: loading does not distinguish an absent document
from a malformed one at the loading interface — an absent file, a file
whose parse throws, a file parsing to a falsy value, and a file parsing
without the expected top-level key all return null; only the thrown
parse differs, and only by a console log, never by the returned value. -/
theorem C2_absent_and_malformed_collapse (folder : String)
    (p : YamlParse ModelsDoc) (q : YamlParse RulesDoc) :
    getSemanticModels (some folder) true (.parsed { models := none }) =
      getSemanticModels (some folder) false p ∧
    (getSemanticModels (some folder) false p).value = none ∧
    (getSemanticModels (some folder) true .throws).value = none ∧
    (getSemanticModels (some folder) true .parsedNull).value = none ∧
    getBusinessRules (some folder) true (.parsed { rules := none }) =
      getBusinessRules (some folder) false q ∧
    (getBusinessRules (some folder) false q).value = none ∧
    (getBusinessRules (some folder) true .throws).value = none ∧
    (getBusinessRules (some folder) true .parsedNull).value = none := by
  by_cases h : folder = "" <;>
    simp [getSemanticModels, getBusinessRules, h]

/-- Claim C3, counterexample: two well-formed models documents that
differ in a dimension source column, a measure source column and a join
target model load to identical in-memory results, so no re-serialization
of the loaded result can reproduce those fields — load is lossy for
them. -/
theorem C3_counterexample :
    ordersDocA ≠ ordersDocB ∧
    getSemanticModels (some "/proj") true (.parsed ordersDocA) =
      getSemanticModels (some "/proj") true (.parsed ordersDocB) := by
  constructor
  · decide
  · rfl

/-- Claim C3 amended: loading retains, and a re-serialization can
reproduce, exactly the model names, tables, descriptions, dimension
names, measure names with their aggregation kinds, and join aliases;
dimension and measure source columns and join target models are dropped
by the loader and do not survive the round trip. -/
theorem C3_load_retains_names_and_kinds (folder : String) (h : folder ≠ "")
    (ms : List (String × RawModel)) :
    (getSemanticModels (some folder) true (.parsed { models := some ms })).value =
      some (ms.map (fun kv => modelToInfo kv.1 kv.2)) ∧
    (ms.map (fun kv => modelToInfo kv.1 kv.2)).map SemanticModelInfo.name =
      ms.map Prod.fst ∧
    (ms.map (fun kv => modelToInfo kv.1 kv.2)).map SemanticModelInfo.table =
      ms.map (fun kv => kv.2.table) ∧
    (ms.map (fun kv => modelToInfo kv.1 kv.2)).map SemanticModelInfo.description =
      ms.map (fun kv => kv.2.description) ∧
    (ms.map (fun kv => modelToInfo kv.1 kv.2)).map SemanticModelInfo.dimensions =
      ms.map (fun kv => kv.2.dimensions.map Prod.fst) ∧
    (ms.map (fun kv => modelToInfo kv.1 kv.2)).map SemanticModelInfo.measures =
      ms.map (fun kv => kv.2.measures.map (fun m => (m.1, m.2.type))) ∧
    (ms.map (fun kv => modelToInfo kv.1 kv.2)).map SemanticModelInfo.joins =
      ms.map (fun kv => kv.2.joins.map Prod.fst) := by
  refine ⟨?_, ?_, ?_, ?_, ?_, ?_, ?_⟩ <;>
    simp [getSemanticModels, h, modelToInfo, List.map_map, Function.comp]

theorem C3_load_retains_names_and_kinds_witness :
    (getSemanticModels (some "/proj") true
        (.parsed { models := some [("orders",
          { table := "orders", description := none
            dimensions := [("status", { column := "status", description := none })]
            measures := [("total_amount", { type := "sum", column := some "amount" })]
            joins := [] })] })).value =
      some [modelToInfo "orders"
        { table := "orders", description := none
          dimensions := [("status", { column := "status", description := none })]
          measures := [("total_amount", { type := "sum", column := some "amount" })]
          joins := [] }] :=
  (C3_load_retains_names_and_kinds "/proj" (by decide) _).1

/-- Claim C7, counterexample: a rule that declares the empty string as
its severity is loaded with severity info, not with its declared value —
so a rule that declares a severity does not always keep it unchanged. -/
theorem C7_counterexample :
    (getBusinessRules (some "/proj") true
        (.parsed { rules := some [
          { name := "r1", category := "metrics", severity := some ""
            description := "d", guidance := "g" }] })).value =
      some [
        { name := "r1", category := "metrics", severity := "info"
          description := "d", guidance := "g" }] ∧
    ("" : String) ≠ "info" := by
  constructor
  · rfl
  · decide

/-- Claim C7 amended: a rule that declares no severity, or declares the
empty string (any JS-falsy severity), is loaded with severity info; a
rule that declares a nonempty severity keeps it unchanged; and loading
maps every rule of the document through this severity rule. -/
theorem C7_severity_default (r : RawRule) :
    ((r.severity = none ∨ r.severity = some "") → (ruleToInfo r).severity = "info") ∧
    (∀ s, r.severity = some s → s ≠ "" → (ruleToInfo r).severity = s) ∧
    (∀ folder rs, folder ≠ "" →
      (getBusinessRules (some folder) true (.parsed { rules := some rs })).value =
        some (rs.map ruleToInfo)) := by
  refine ⟨?_, ?_, ?_⟩
  · rintro (h | h) <;> simp [ruleToInfo, jsStringOr, h]
  · intro s hs hne
    simp [ruleToInfo, jsStringOr, hs, hne]
  · intro folder rs hf
    simp [getBusinessRules, hf]

theorem C7_severity_default_witness :
    (ruleToInfo
      { name := "r1", category := "metrics", severity := none
        description := "d", guidance := "g" }).severity = "info" ∧
    (ruleToInfo
      { name := "r2", category := "metrics", severity := some "critical"
        description := "d", guidance := "g" }).severity = "critical" :=
  ⟨(C7_severity_default
      { name := "r1", category := "metrics", severity := none
        description := "d", guidance := "g" }).1 (Or.inl rfl),
   (C7_severity_default
      { name := "r2", category := "metrics", severity := some "critical"
        description := "d", guidance := "g" }).2.1 "critical" rfl (by decide)⟩

/-- Claim C4, counterexample: for a rule query that also carries a
category filter, match_rules does not return every rule whose
applies_to intersects the requested concepts — the category filter is
applied as well, so a rule of another category is excluded even though
its applies_to contains the requested concept. -/
theorem C4_counterexample :
    (matchRules [ruleCashTips] (some "metrics") ["tip_amount"]).1 ≠
      [ruleCashTips].filter (fun r => conceptsIntersect r.applies_to ["tip_amount"]) := by
  decide

/-- Claim C4 amended: for every loaded rule set and every rule query
with a non-empty concepts list and no category filter, match_rules
returns exactly the rules whose applies_to set has a non-empty
exact-string intersection with the requested concepts; and for every
category filter, the categories component of the result is the full
distinct category set of the loaded rule set, unaffected by the
filters. -/
theorem C4_match_rules_concepts (rules : List Rule) (concepts : List String)
    (h : concepts ≠ []) :
    (matchRules rules none concepts).1 =
      rules.filter (fun r => conceptsIntersect r.applies_to concepts) ∧
    (∀ r, r ∈ (matchRules rules none concepts).1 ↔
      r ∈ rules ∧ conceptsIntersect r.applies_to concepts = true) ∧
    (∀ category, (matchRules rules category concepts).2 =
      (rules.map (fun r => r.category)).dedup) := by
  have hne : concepts.isEmpty = false := by
    cases concepts with
    | nil => exact absurd rfl h
    | cons a l => rfl
  refine ⟨?_, ?_, ?_⟩
  · simp [matchRules, hne]
  · intro r
    simp [matchRules, hne, List.mem_filter]
  · intro category
    simp [matchRules]

theorem C4_match_rules_concepts_witness :
    (matchRules [ruleCashTips, ruleRevenue] none ["tip_amount"]).1 =
      [ruleCashTips, ruleRevenue].filter
        (fun r => conceptsIntersect r.applies_to ["tip_amount"]) ∧
    (matchRules [ruleCashTips, ruleRevenue] none ["tip_amount"]).2 =
      ["data_quality", "metrics"] := by
  refine ⟨(C4_match_rules_concepts [ruleCashTips, ruleRevenue] ["tip_amount"] (by decide)).1, ?_⟩
  have h := (C4_match_rules_concepts [ruleCashTips, ruleRevenue] ["tip_amount"] (by decide)).2.2 none
  rw [h]
  decide

/-- Claim C8: when the backend call of the query-metrics or
business-context tool returns a non-OK response, the tool throws an
error carrying the backend error detail, makes exactly one backend
request, and produces no success output. -/
theorem C8_error_propagation_no_retry (backend : Nat → HttpResponse)
    (h : (backend 0).ok = false) :
    (executeQueryMetrics backend).1 =
      .error ("Error querying metrics: " ++ responseDetail (backend 0)) ∧
    (executeQueryMetrics backend).2 = 1 ∧
    (∀ s, (executeQueryMetrics backend).1 ≠ .ok s) ∧
    (executeGetBusinessContext backend).1 =
      .error ("Error fetching business context: " ++ responseDetail (backend 0)) ∧
    (executeGetBusinessContext backend).2 = 1 ∧
    (∀ s, (executeGetBusinessContext backend).1 ≠ .ok s) := by
  simp [executeQueryMetrics, executeGetBusinessContext, h]

theorem C8_error_propagation_no_retry_witness :
    (executeQueryMetrics (fun _ => badResp)).1 =
      .error ("Error querying metrics: " ++ responseDetail badResp) ∧
    (executeQueryMetrics (fun _ => badResp)).2 = 1 :=
  ⟨(C8_error_propagation_no_retry (fun _ => badResp) rfl).1,
   (C8_error_propagation_no_retry (fun _ => badResp) rfl).2.1⟩

/-- Claim C9: with a configured project folder, and MCP tools not
reusing the three reserved names, getTools registers query_metrics
exactly when semantics/semantic_model.yml exists under the project
folder, and registers get_business_context and classify exactly when
semantics/business_rules.yml exists under it. -/
theorem C9_conditional_tool_registration (agentSettings : Option AgentSettings)
    (mcp : List String) (epy : Bool) (folder : String) (fs : String → Bool)
    (hfolder : folder ≠ "")
    (h1 : "query_metrics" ∉ mcp) (h2 : "get_business_context" ∉ mcp)
    (h3 : "classify" ∉ mcp) :
    ("query_metrics" ∈ getTools agentSettings mcp epy (some folder) fs ↔
      fs (folder ++ "/semantics/semantic_model.yml") = true) ∧
    ("get_business_context" ∈ getTools agentSettings mcp epy (some folder) fs ↔
      fs (folder ++ "/semantics/business_rules.yml") = true) ∧
    ("classify" ∈ getTools agentSettings mcp epy (some folder) fs ↔
      fs (folder ++ "/semantics/business_rules.yml") = true) := by
  cases hp : pythonSandboxingOn agentSettings && epy <;>
    cases hs : fs (folder ++ "/semantics/semantic_model.yml") <;>
      cases hb : fs (folder ++ "/semantics/business_rules.yml") <;>
        simp [getTools, hasSemanticModel, hasBusinessRules, baseToolNames,
          hfolder, hp, hs, hb, h1, h2, h3]

theorem C9_conditional_tool_registration_witness :
    "query_metrics" ∈ getTools none [] false (some "/p")
      (fun s => s == "/p/semantics/semantic_model.yml") ∧
    "classify" ∉ getTools none [] false (some "/p")
      (fun s => s == "/p/semantics/semantic_model.yml") := by
  have h := C9_conditional_tool_registration none [] false "/p"
    (fun s => s == "/p/semantics/semantic_model.yml") (by decide)
    (by simp) (by simp) (by simp)
  exact ⟨h.1.mpr (by decide), fun hc => absurd (h.2.2.mp hc) (by decide)⟩

/-- Claim C10: the business-context request body carries the category
(resp. classify name) field exactly when that string is present and
nonempty, and the concepts (resp. tags) field exactly when that list is
nonempty; an empty-string category or name and an empty concepts or
tags list behave as if the filter were not given. -/
theorem C10_optional_filter_fields (category name : Option String)
    (concepts tags : List String) :
    ((businessContextRequestBody category concepts).category.isSome ↔
      ∃ c, category = some c ∧ c ≠ "") ∧
    (∀ c, category = some c → c ≠ "" →
      (businessContextRequestBody category concepts).category = some c) ∧
    ((businessContextRequestBody category concepts).concepts.isSome ↔ concepts ≠ []) ∧
    (concepts ≠ [] → (businessContextRequestBody category concepts).concepts = some concepts) ∧
    businessContextRequestBody (some "") concepts = businessContextRequestBody none concepts ∧
    ((classifyRequestBody name tags).name.isSome ↔ ∃ n, name = some n ∧ n ≠ "") ∧
    (∀ n, name = some n → n ≠ "" → (classifyRequestBody name tags).name = some n) ∧
    ((classifyRequestBody name tags).tags.isSome ↔ tags ≠ []) ∧
    (tags ≠ [] → (classifyRequestBody name tags).tags = some tags) ∧
    classifyRequestBody (some "") tags = classifyRequestBody none tags := by
  refine ⟨?_, ?_, ?_, ?_, ?_, ?_, ?_, ?_, ?_, ?_⟩
  · cases category with
    | none => simp [businessContextRequestBody]
    | some c =>
      by_cases hc : c = "" <;> simp [businessContextRequestBody, hc]
  · intro c hc hne
    simp [businessContextRequestBody, hc, hne]
  · cases concepts <;> simp [businessContextRequestBody]
  · intro h
    simp [businessContextRequestBody, List.length_eq_zero, h]
  · simp [businessContextRequestBody]
  · cases name with
    | none => simp [classifyRequestBody]
    | some n =>
      by_cases hn : n = "" <;> simp [classifyRequestBody, hn]
  · intro n hn hne
    simp [classifyRequestBody, hn, hne]
  · cases tags <;> simp [classifyRequestBody]
  · intro h
    simp [classifyRequestBody, List.length_eq_zero, h]
  · simp [classifyRequestBody]

theorem C10_optional_filter_fields_witness :
    (businessContextRequestBody (some "") ["tip_amount"]).category = none ∧
    (businessContextRequestBody (some "") ["tip_amount"]).concepts = some ["tip_amount"] := by
  have h := C10_optional_filter_fields (some "") none ["tip_amount"] []
  refine ⟨?_, h.2.2.2.1 (by decide)⟩
  have h5 := h.2.2.2.2.1
  have : (businessContextRequestBody (none : Option String) ["tip_amount"]).category = none := rfl
  rw [h5, this]

theorem preAggregate_keys (many : List ManyRow) :
    (preAggregate many).map Prod.fst = (many.map Prod.fst).dedup := by
  simp only [preAggregate, List.map_map]
  have : (Prod.fst ∘ fun k : Nat =>
      (k, ((many.filter (fun r => r.1 == k)).map Prod.snd).sum)) = id := by
    funext k
    rfl
  rw [this, List.map_id]

theorem preAggregate_nodup_keys (many : List ManyRow) :
    ((preAggregate many).map Prod.fst).Nodup := by
  rw [preAggregate_keys]
  exact List.nodup_dedup _

theorem filter_key_length_le_one (target : List ManyRow)
    (h : (target.map Prod.fst).Nodup) (k : Nat) :
    (target.filter (fun t => t.1 == k)).length ≤ 1 := by
  induction target with
  | nil => simp
  | cons t ts ih =>
    rw [List.map_cons, List.nodup_cons] at h
    by_cases hk : t.1 = k
    · have hempty : ts.filter (fun x => x.1 == k) = [] := by
        rw [List.filter_eq_nil_iff]
        intro a ha hpa
        exact h.1 (List.mem_map.mpr ⟨a, ha, by
          have : a.1 = k := by simpa using hpa
          omega⟩)
      simp [List.filter_cons, hk, hempty]
    · simp only [List.filter_cons]
      have : (t.1 == k) = false := by simpa using hk
      rw [this]
      simpa using ih h.2

theorem factSum_append (a b : List FactRow) :
    factSum (a ++ b) = factSum a + factSum b := by
  simp [factSum]

theorem leftJoin_row_sum (target : List ManyRow)
    (h : (target.map Prod.fst).Nodup) (r : FactRow) :
    factSum (match target.filter (fun t => t.1 == r.1) with
             | [] => [r]
             | ms => ms.map (fun _ => r)) = r.2 := by
  cases hf : target.filter (fun t => t.1 == r.1) with
  | nil => simp [factSum]
  | cons m ms =>
    have hlen := filter_key_length_le_one target h r.1
    rw [hf] at hlen
    have hnil : ms = [] := by
      cases ms with
      | nil => rfl
      | cons m2 ms2 => simp at hlen
    subst hnil
    simp [factSum]

theorem factSum_leftJoin (fact : List FactRow) (target : List ManyRow)
    (h : (target.map Prod.fst).Nodup) :
    factSum (leftJoinFactRows fact target) = factSum fact := by
  induction fact with
  | nil => simp [leftJoinFactRows, factSum]
  | cons r rs ih =>
    have hstep : leftJoinFactRows (r :: rs) target =
        (match target.filter (fun t => t.1 == r.1) with
         | [] => [r]
         | ms => ms.map (fun _ => r)) ++ leftJoinFactRows rs target := by
      simp [leftJoinFactRows]
    rw [hstep, factSum_append, leftJoin_row_sum target h r, ih]
    simp [factSum]

/-- Claim C1: combining a fact-model sum measure with a one_to_many join
compiles to a plan that pre-aggregates the many side into a
one-row-per-key node before joining, and with no many-side dimension
selected the fact-side aggregate equals the value computed with no join
at all. -/
theorem C1_one_to_many_fanout_safe (useJoin : Bool) (h : useJoin = true)
    (fact : List FactRow) (many : List ManyRow) :
    compileShape useJoin .one_to_many = .preAggJoin ∧
    ((preAggregate many).map Prod.fst).Nodup ∧
    evalFactSum (compileShape useJoin .one_to_many) fact many =
      evalFactSum .scan fact many := by
  subst h
  refine ⟨rfl, preAggregate_nodup_keys many, ?_⟩
  simp only [compileShape, if_true, evalFactSum]
  exact factSum_leftJoin fact (preAggregate many) (preAggregate_nodup_keys many)

theorem C1_one_to_many_fanout_safe_witness :
    evalFactSum (compileShape true .one_to_many)
      [(1, 100), (2, 900)] [(1, 5), (1, 7), (1, 9)] =
      evalFactSum .scan [(1, 100), (2, 900)] [(1, 5), (1, 7), (1, 9)] ∧
    evalFactSum .scan [(1, 100), (2, 900)] [(1, 5), (1, 7), (1, 9)] = 1000 :=
  ⟨(C1_one_to_many_fanout_safe true rfl
      [(1, 100), (2, 900)] [(1, 5), (1, 7), (1, 9)]).2.2, by decide⟩

end Dazense
